import Mathlib

set_option maxRecDepth 8000

/-!
Verification of the grecho echo server (src/main.rs).

The request-to-response transformation (`echo_handler`), the reserved-header
table, and the bind-address validators are embedded shallowly.  Header values
are byte sequences (natural numbers below 256); a request's header collection
is an ordered list of (name, value) pairs as handed to the handler by the
transport; bodies are byte sequences.  Rust standard-library functions the
source calls (`HeaderValue::to_str`, `String::from_utf8_lossy`,
`u16::from_str`, `IpAddr::from_str`, `StatusCode::from_u16`) are modelled
from their documented semantics.
-/

/-- The reserved header names of src/main.rs (`RESERVED_HEADERS`), in source
order.  The handler never copies a header with one of these (lowercased)
names into the response. -/
def RESERVED_HEADERS : List String :=
  ["content-length", "user-agent", "host", "connection", "accept",
   "accept-encoding", "accept-language", "cache-control",
   "upgrade-insecure-requests", "sec-fetch-dest", "sec-fetch-mode",
   "sec-fetch-site", "sec-ch-ua", "sec-ch-ua-mobile", "sec-ch-ua-platform",
   "authorization", "cookie", "referer", "origin", "x-forwarded-for",
   "x-forwarded-proto", "x-real-ip", "transfer-encoding", "te", "trailer",
   "proxy-authorization", "proxy-authenticate", "www-authenticate"]

/-- Control header selecting the response status (`INTERNAL_STATUS_CODE_HEADER`). -/
def INTERNAL_STATUS_CODE_HEADER : String := "internal.status-code"

/-- Control header selecting the response body (`INTERNAL_RESPONSE_BODY_HEADER`). -/
def INTERNAL_RESPONSE_BODY_HEADER : String := "internal.response-body"

/-- The structured request the transport hands to `echo_handler`: method,
path, query string, ordered header list (names with byte-sequence values),
body bytes, and the verbose flag passed as app data. -/
structure Request where
  method : String
  path : String
  queryString : String
  headers : List (String × List Nat)
  body : List Nat
  verbose : Bool

deriving instance DecidableEq for Request

/-- The structured response `echo_handler` returns: status code, header list,
body string. -/
structure Response where
  status : Nat
  headers : List (String × String)
  body : String

deriving instance DecidableEq for Response

/-- A byte acceptable to `http::HeaderValue::to_str`: visible ASCII
(32..=126) or horizontal tab. -/
def is_visible_ascii (b : Nat) : Bool := (32 ≤ b && b < 127) || b == 9

/-- Model of `str::to_lowercase` as the source applies it to header names:
header names are ASCII, so lowercasing is characterwise. -/
def strToLower (s : String) : String := String.mk (s.data.map Char.toLower)

/-- Model of `HeaderValue::to_str`: succeeds exactly when every byte is
visible ASCII (or tab), yielding the corresponding character string. -/
def headerValueToStr (v : List Nat) : Option String :=
  if v.all is_visible_ascii then some (String.mk (v.map Char.ofNat)) else none

/-- Model of `HeaderMap::get(name)` for a lowercase `name`: the value of the
first header whose name matches case-insensitively. -/
def headerGet (hs : List (String × List Nat)) (name : String) : Option (List Nat) :=
  match hs.find? (fun p => strToLower p.1 == name) with
  | some p => some p.2
  | none => none

/-- Decimal digit value of a character, as in `char::to_digit(10)`. -/
def decDigitVal (c : Char) : Option Nat :=
  if '0' ≤ c ∧ c ≤ '9' then some (c.toNat - 48) else none

/-- Model of `str::parse::<u16>()` (`u16::from_str`): an optional leading
`+`, then one or more decimal digits, with every intermediate value checked
against the u16 bound. -/
def parseU16 (s : String) : Option Nat :=
  let cs := match s.data with
    | '+' :: r => r
    | l => l
  if cs.isEmpty then none
  else cs.foldl (fun acc c =>
    match acc, decDigitVal c with
    | some a, some d => if a * 10 + d ≤ 65535 then some (a * 10 + d) else none
    | _, _ => none) (some 0)

/-- The `status_code` local of `echo_handler`: the first
`internal.status-code` value, converted to a string and parsed as u16,
defaulting to 200. -/
def statusCodeRaw (hs : List (String × List Nat)) : Nat :=
  match (headerGet hs INTERNAL_STATUS_CODE_HEADER).bind
      (fun v => (headerValueToStr v).bind parseU16) with
  | some n => n
  | none => 200

/-- The response status: `StatusCode::from_u16(status_code).unwrap_or(OK)`,
where `from_u16` accepts exactly 100..=999 and `OK` is 200. -/
def effectiveStatusCode (hs : List (String × List Nat)) : Nat :=
  if 100 ≤ statusCodeRaw hs ∧ statusCodeRaw hs < 1000 then statusCodeRaw hs else 200

/-- The Unicode replacement character U+FFFD. -/
def replacementChar : Char := Char.ofNat 0xFFFD

/-- A UTF-8 continuation byte (0x80..=0xBF). -/
def isCont (b : Nat) : Bool := 128 ≤ b && b ≤ 191

/-- The admissible second byte of a 3- or 4-byte UTF-8 sequence with lead
byte `b`, following Rust's `run_utf8_validation` table. -/
def utf8SecondByteOk (b b1 : Nat) : Bool :=
  if b == 0xE0 then 0xA0 ≤ b1 && b1 ≤ 0xBF
  else if b == 0xED then 0x80 ≤ b1 && b1 ≤ 0x9F
  else if b == 0xF0 then 0x90 ≤ b1 && b1 ≤ 0xBF
  else if b == 0xF4 then 0x80 ≤ b1 && b1 ≤ 0x8F
  else isCont b1

/-- Model of `String::from_utf8_lossy`: decode UTF-8, replacing each maximal
invalid subpart by U+FFFD, per Rust's validation (invalid lead bytes and
out-of-place continuation bytes are replaced one by one; a valid lead whose
sequence is cut short by a bad byte is replaced as a unit and decoding
resumes at the bad byte; a truncated sequence at the end yields a single
replacement). -/
def utf8Lossy : List Nat → List Char
  | [] => []
  | b :: rest =>
    if b ≤ 0x7F then Char.ofNat b :: utf8Lossy rest
    else if 0xC2 ≤ b && b ≤ 0xDF then
      match rest with
      | [] => [replacementChar]
      | b1 :: r1 =>
        if isCont b1 then
          Char.ofNat ((b - 0xC0) * 64 + (b1 - 0x80)) :: utf8Lossy r1
        else replacementChar :: utf8Lossy (b1 :: r1)
    else if 0xE0 ≤ b && b ≤ 0xEF then
      match rest with
      | [] => [replacementChar]
      | b1 :: r1 =>
        if utf8SecondByteOk b b1 then
          match r1 with
          | [] => [replacementChar]
          | b2 :: r2 =>
            if isCont b2 then
              Char.ofNat ((b - 0xE0) * 4096 + (b1 - 0x80) * 64 + (b2 - 0x80)) :: utf8Lossy r2
            else replacementChar :: utf8Lossy (b2 :: r2)
        else replacementChar :: utf8Lossy (b1 :: r1)
    else if 0xF0 ≤ b && b ≤ 0xF4 then
      match rest with
      | [] => [replacementChar]
      | b1 :: r1 =>
        if utf8SecondByteOk b b1 then
          match r1 with
          | [] => [replacementChar]
          | b2 :: r2 =>
            if isCont b2 then
              match r2 with
              | [] => [replacementChar]
              | b3 :: r3 =>
                if isCont b3 then
                  Char.ofNat ((b - 0xF0) * 262144 + (b1 - 0x80) * 4096
                    + (b2 - 0x80) * 64 + (b3 - 0x80)) :: utf8Lossy r3
                else replacementChar :: utf8Lossy (b3 :: r3)
            else replacementChar :: utf8Lossy (b2 :: r2)
        else replacementChar :: utf8Lossy (b1 :: r1)
    else replacementChar :: utf8Lossy rest

/-- String form of the lossy UTF-8 decoding. -/
def utf8LossyString (l : List Nat) : String := String.mk (utf8Lossy l)

/-- The `response_body` local of `echo_handler`: the first
`internal.response-body` value when it converts to a string, otherwise the
request body decoded leniently. -/
def effectiveBody (hs : List (String × List Nat)) (body : List Nat) : String :=
  match (headerGet hs INTERNAL_RESPONSE_BODY_HEADER).bind headerValueToStr with
  | some s => s
  | none => utf8LossyString body

/-- The handler's pass-through test: the lowercased name is not in
`RESERVED_HEADERS` and differs from both control-header names. -/
def isPassThroughName (n : String) : Bool :=
  let l := strToLower n
  !(RESERVED_HEADERS.contains l)
    && l != INTERNAL_STATUS_CODE_HEADER
    && l != INTERNAL_RESPONSE_BODY_HEADER

/-- Model of `HttpResponseBuilder::insert_header`: any header with an
equivalent (case-insensitive) field name is replaced by the new one. -/
def insertHeader (acc : List (String × String)) (n : String) (v : String) :
    List (String × String) :=
  acc.filter (fun q => strToLower q.1 != strToLower n) ++ [(n, v)]

/-- One iteration of the header-copy loop of `echo_handler`: a pass-through
header whose value converts to a string is inserted; anything else leaves
the response unchanged. -/
def echoStep (acc : List (String × String)) (p : String × List Nat) :
    List (String × String) :=
  if isPassThroughName p.1 then
    match headerValueToStr p.2 with
    | some s => insertHeader acc p.1 s
    | none => acc
  else acc

/-- The header-copy loop of `echo_handler` over the whole request header
list. -/
def echoHeaders (hs : List (String × List Nat)) : List (String × String) :=
  hs.foldl echoStep []

/-- The request-to-response transformation of `echo_handler` (the verbose
logging is write-only and does not affect the response). -/
def echo_handler (req : Request) : Response :=
  { status := effectiveStatusCode req.headers
    headers := echoHeaders req.headers
    body := effectiveBody req.headers req.body }

/-- Hexadecimal digit value of a character, as in `char::to_digit(16)`. -/
def hexDigitVal (c : Char) : Option Nat :=
  if '0' ≤ c ∧ c ≤ '9' then some (c.toNat - 48)
  else if 'a' ≤ c ∧ c ≤ 'f' then some (c.toNat - 87)
  else if 'A' ≤ c ∧ c ≤ 'F' then some (c.toNat - 55)
  else none

/-- The leading digits of a character list together with the remaining
characters. -/
def takeDigits (dv : Char → Option Nat) : List Char → List Nat × List Char
  | [] => ([], [])
  | c :: r =>
    match dv c with
    | some d =>
      let p := takeDigits dv r
      (d :: p.1, p.2)
    | none => ([], c :: r)

/-- Model of the Rust address parser's `read_number`: one or more digits of
the given kind, at most `maxD` of them, value bounded by `bound` at every
step, and (unless `allowZP`) no redundant leading zero. -/
def readNum (dv : Char → Option Nat) (radix maxD bound : Nat) (allowZP : Bool)
    (cs : List Char) : Option (Nat × List Char) :=
  let p := takeDigits dv cs
  if p.1.isEmpty then none
  else if maxD < p.1.length then none
  else if allowZP = false ∧ p.1.head? = some 0 ∧ 1 < p.1.length then none
  else
    match p.1.foldl (fun acc d =>
        match acc with
        | some a => if a * radix + d ≤ bound then some (a * radix + d) else none
        | none => none) (some 0) with
    | some n => some (n, p.2)
    | none => none

/-- Model of the Rust address parser's `read_separator`: at the first group
the inner parser runs directly, later groups must be preceded by `sep`. -/
def readSep (sep : Char) (first : Bool) (inner : List Char → Option (α × List Char))
    (cs : List Char) : Option (α × List Char) :=
  if first then inner cs
  else
    match cs with
    | c :: r => if c = sep then inner r else none
    | [] => none

/-- An IPv4 octet: at most three decimal digits, no leading zero, value at
most 255. -/
def readOctet (cs : List Char) : Option (Nat × List Char) :=
  readNum decDigitVal 10 3 255 false cs

/-- Model of `read_ipv4_addr`: four dot-separated octets. -/
def readIpv4 (cs : List Char) : Option ((Nat × Nat × Nat × Nat) × List Char) := do
  let (a, r1) ← readOctet cs
  let (b, r2) ← readSep '.' false readOctet r1
  let (c, r3) ← readSep '.' false readOctet r2
  let (d, r4) ← readSep '.' false readOctet r3
  some ((a, b, c, d), r4)

/-- An IPv6 group: at most four hex digits (leading zeros allowed). -/
def readGroup (cs : List Char) : Option (Nat × List Char) :=
  readNum hexDigitVal 16 4 65535 true cs

/-- Model of the `read_groups` helper of `read_ipv6_addr`: reads up to
`fuel` colon-separated groups, allowing a trailing embedded IPv4 address
when at least two group slots remain; returns the groups read, whether an
embedded IPv4 address ended the run, and the remaining characters. -/
def readGroups : Nat → Bool → List Char → List Nat × Bool × List Char
  | 0, _, cs => ([], false, cs)
  | fuel + 1, first, cs =>
    if 1 ≤ fuel then
      match readSep ':' first readIpv4 cs with
      | some ((a, b, c, d), rest) => ([a * 256 + b, c * 256 + d], true, rest)
      | none =>
        match readSep ':' first readGroup cs with
        | some (g, rest) =>
          let q := readGroups fuel false rest
          (g :: q.1, q.2.1, q.2.2)
        | none => ([], false, cs)
    else
      match readSep ':' first readGroup cs with
      | some (g, rest) =>
        let q := readGroups fuel false rest
        (g :: q.1, q.2.1, q.2.2)
      | none => ([], false, cs)

/-- Model of `read_ipv6_addr`: a head run of groups; eight groups is a
complete address, an embedded IPv4 address may not precede `::`, and
otherwise `::` followed by a tail run fills the remaining groups with
zeros in between. -/
def readIpv6 (cs : List Char) : Option (List Nat × List Char) :=
  let h := readGroups 8 true cs
  if h.1.length = 8 then some (h.1, h.2.2)
  else if h.2.1 then none
  else
    match h.2.2 with
    | ':' :: ':' :: rest2 =>
      let t := readGroups (8 - (h.1.length + 1)) true rest2
      some (h.1 ++ List.replicate (8 - h.1.length - t.1.length) 0 ++ t.1, t.2.2)
    | _ => none

/-- A parsed IP address. -/
inductive IpAddr where
  | v4 (a b c d : Nat)
  | v6 (groups : List Nat)

deriving instance DecidableEq for IpAddr

/-- Model of `read_ip_addr`: IPv4 first, otherwise IPv6 (each attempt
atomic). -/
def readIpAddr (cs : List Char) : Option (IpAddr × List Char) :=
  match readIpv4 cs with
  | some ((a, b, c, d), rest) => some (IpAddr.v4 a b c d, rest)
  | none =>
    match readIpv6 cs with
    | some (gs, rest) => some (IpAddr.v6 gs, rest)
    | none => none

/-- Model of `IpAddr::from_str`: the whole string must be consumed. -/
def ipFromStr (s : String) : Option IpAddr :=
  match readIpAddr s.data with
  | some (ip, []) => some ip
  | _ => none

/-- `validate_hostname` of src/main.rs: `IpAddr::from_str` with the source's
error message. -/
def validate_hostname (hostname : String) : Except String IpAddr :=
  match ipFromStr hostname with
  | some ip => Except.ok ip
  | none =>
    Except.error ("Invalid hostname '" ++ hostname ++ "'. Must be a valid IP address.")

/-- `validate_port` of src/main.rs: parse as u16 (with the source's parse
error message), then reject 0. -/
def validate_port (port_str : String) : Except String Nat :=
  match parseU16 port_str with
  | none =>
    Except.error ("Invalid port '" ++ port_str ++ "'. Must be a number between 1 and 65535.")
  | some 0 => Except.error "Port cannot be 0. Must be between 1 and 65535."
  | some p => Except.ok p

/-- A request header pair as the claims view it: a pass-through pair whose
value converts to a string contributes that (name, string) pair to the
response, anything else contributes nothing. -/
def passPair (p : String × List Nat) : Option (String × String) :=
  if isPassThroughName p.1 then (headerValueToStr p.2).map (fun s => (p.1, s)) else none

/-- The lowercased pass-through names of a header list, in order. -/
def ptNames (hs : List (String × List Nat)) : List String :=
  hs.filterMap (fun p => if isPassThroughName p.1 then some (strToLower p.1) else none)

/-- A plain request: one pass-through header, body "hello". -/
def reqSimple : Request :=
  { method := "GET", path := "/foo", queryString := "x=1"
    headers := [("x-test", [97])]
    body := [104, 101, 108, 108, 111]
    verbose := false }

/-- A request carrying a status override of 404. -/
def reqStatus : Request :=
  { method := "GET", path := "/", queryString := ""
    headers := [(INTERNAL_STATUS_CODE_HEADER, [52, 48, 52])]
    body := []
    verbose := false }

/-- A request whose body override is the UTF-8 bytes of a non-ASCII string. -/
def reqBadBody : Request :=
  { method := "GET", path := "/", queryString := ""
    headers := [(INTERNAL_RESPONSE_BODY_HEADER, [195, 169])]
    body := [120]
    verbose := false }

/-- A request whose body override is the visible-ASCII string "ok". -/
def reqOverride : Request :=
  { method := "GET", path := "/", queryString := ""
    headers := [(INTERNAL_RESPONSE_BODY_HEADER, [111, 107])]
    body := [120]
    verbose := false }

/-- A request repeating the pass-through header x-test with values "a" and
"b". -/
def reqRepeated : Request :=
  { method := "GET", path := "/", queryString := ""
    headers := [("x-test", [97]), ("x-test", [98])]
    body := []
    verbose := false }

/-- Helper: a `find?` over a header list skips a middle pair whose name does
not match the looked-up name. -/
theorem headerGet_skip (hs1 hs2 : List (String × List Nat)) (n : String)
    (v : List Nat) (cname : String) (h : (strToLower n == cname) = false) :
    headerGet (hs1 ++ (n, v) :: hs2) cname = headerGet (hs1 ++ hs2) cname := by
  unfold headerGet
  rw [List.find?_append, List.find?_append, List.find?_cons]
  simp [h]

/-- Helper: `insertHeader` is a plain append when no accumulated header has
an equivalent name. -/
theorem insertHeader_of_fresh (acc : List (String × String)) (n v : String)
    (h : ∀ q ∈ acc, strToLower q.1 ≠ strToLower n) :
    insertHeader acc n v = acc ++ [(n, v)] := by
  unfold insertHeader
  have : acc.filter (fun q => strToLower q.1 != strToLower n) = acc := by
    apply List.filter_eq_self.mpr
    intro q hq
    simpa using h q hq
  rw [this]

/-- Helper: the header-copy loop, started from any accumulator whose names
avoid the upcoming pass-through names, appends exactly the representable
pass-through pairs when the pass-through names are distinct. -/
theorem foldl_echoStep_eq (hs : List (String × List Nat)) :
    ∀ acc : List (String × String),
    (∀ q ∈ acc, ∀ p ∈ hs, isPassThroughName p.1 = true → strToLower q.1 ≠ strToLower p.1) →
    (ptNames hs).Nodup →
    hs.foldl echoStep acc = acc ++ hs.filterMap passPair := by
  induction hs with
  | nil => intro acc _ _; simp
  | cons p t ih =>
    intro acc hacc hnd
    by_cases hp : isPassThroughName p.1 = true
    · cases hv : headerValueToStr p.2 with
      | none =>
        rw [List.foldl_cons]
        have hstep : echoStep acc p = acc := by simp [echoStep, hp, hv]
        rw [hstep]
        have hpt : ptNames (p :: t) = strToLower p.1 :: ptNames t := by
          simp [ptNames, hp]
        rw [hpt] at hnd
        rw [ih acc (fun q hq r hr hro => hacc q hq r (List.mem_cons_of_mem _ hr) hro)
          (List.nodup_cons.mp hnd).2]
        simp [passPair, hp, hv]
      | some s =>
        rw [List.foldl_cons]
        have hstep : echoStep acc p = acc ++ [(p.1, s)] := by
          have : echoStep acc p = insertHeader acc p.1 s := by
            simp [echoStep, hp, hv]
          rw [this]
          exact insertHeader_of_fresh acc p.1 s
            (fun q hq => hacc q hq p (List.mem_cons_self p t) hp)
        rw [hstep]
        have hpt : ptNames (p :: t) = strToLower p.1 :: ptNames t := by
          simp [ptNames, hp]
        rw [hpt] at hnd
        have hhead : strToLower p.1 ∉ ptNames t := (List.nodup_cons.mp hnd).1
        have hacc2 : ∀ q ∈ acc ++ [(p.1, s)], ∀ r ∈ t,
            isPassThroughName r.1 = true → strToLower q.1 ≠ strToLower r.1 := by
          intro q hq r hr hro
          rcases List.mem_append.mp hq with hq | hq
          · exact hacc q hq r (List.mem_cons_of_mem _ hr) hro
          · have hq2 : q = (p.1, s) := by simpa using hq
            subst hq2
            intro heq
            apply hhead
            rw [heq]
            exact List.mem_filterMap.mpr ⟨r, hr, by simp [hro]⟩
        rw [ih (acc ++ [(p.1, s)]) hacc2 (List.nodup_cons.mp hnd).2]
        simp [passPair, hp, hv, List.append_assoc]
    · rw [List.foldl_cons]
      have hstep : echoStep acc p = acc := by simp [echoStep, hp]
      rw [hstep]
      have hpt : ptNames (p :: t) = ptNames t := by simp [ptNames, hp]
      rw [hpt] at hnd
      rw [ih acc (fun q hq r hr hro => hacc q hq r (List.mem_cons_of_mem _ hr) hro) hnd]
      simp [passPair, hp]

/-- Helper: every header the copy loop emits has a pass-through name. -/
theorem mem_foldl_echoStep (hs : List (String × List Nat)) :
    ∀ acc, (∀ q ∈ acc, isPassThroughName q.1 = true) →
    ∀ q ∈ hs.foldl echoStep acc, isPassThroughName q.1 = true := by
  induction hs with
  | nil => intro acc h; simpa using h
  | cons p t ih =>
    intro acc h
    rw [List.foldl_cons]
    apply ih
    intro q hq
    by_cases hp : isPassThroughName p.1 = true
    · cases hv : headerValueToStr p.2 with
      | none =>
        have : echoStep acc p = acc := by simp [echoStep, hp, hv]
        rw [this] at hq
        exact h q hq
      | some s =>
        have : echoStep acc p = insertHeader acc p.1 s := by simp [echoStep, hp, hv]
        rw [this] at hq
        unfold insertHeader at hq
        rcases List.mem_append.mp hq with hq | hq
        · exact h q (List.mem_of_mem_filter hq)
        · have hq2 : q = (p.1, s) := by simpa using hq
          subst hq2
          exact hp
    · have : echoStep acc p = acc := by simp [echoStep, hp]
      rw [this] at hq
      exact h q hq

/-- C1: for every request, the response status equals the integer value of
the internal.status-code header when that header is present and its value
parses as an integer in the valid HTTP status range (100..=999); in every
other case (header absent, value unparsable, or value out of range) the
response status is 200. -/
theorem c1_status_override (req : Request) :
    (headerGet req.headers INTERNAL_STATUS_CODE_HEADER = none →
      (echo_handler req).status = 200)
    ∧ ∀ v, headerGet req.headers INTERNAL_STATUS_CODE_HEADER = some v →
        ((headerValueToStr v).bind parseU16 = none → (echo_handler req).status = 200)
        ∧ ∀ n, (headerValueToStr v).bind parseU16 = some n →
            ((100 ≤ n ∧ n < 1000) → (echo_handler req).status = n)
            ∧ (¬(100 ≤ n ∧ n < 1000) → (echo_handler req).status = 200) := by
  refine ⟨?_, ?_⟩
  · intro h
    simp [echo_handler, effectiveStatusCode, statusCodeRaw, h]
  · intro v hv
    refine ⟨?_, ?_⟩
    · intro hparse
      simp [echo_handler, effectiveStatusCode, statusCodeRaw, hv, hparse]
    · intro n hn
      constructor
      · intro hrange
        simp [echo_handler, effectiveStatusCode, statusCodeRaw, hv, hn, hrange]
      · intro hrange
        simp [echo_handler, effectiveStatusCode, statusCodeRaw, hv, hn, hrange]

/-- C1 witness: a request with internal.status-code set to "404" gets
response status 404. -/
theorem c1_status_override_witness : (echo_handler reqStatus).status = 404 :=
  (((c1_status_override reqStatus).2 [52, 48, 52] (by decide)).2 404 (by decide)).1
    (by decide)

/-- C3: for every request, no header whose lowercase name is a member of the
reserved set, or equals internal.status-code, or equals
internal.response-body, appears among the response headers. -/
theorem c3_reserved_absent (req : Request) (n v : String)
    (h : (n, v) ∈ (echo_handler req).headers) :
    strToLower n ∉ RESERVED_HEADERS
    ∧ strToLower n ≠ INTERNAL_STATUS_CODE_HEADER
    ∧ strToLower n ≠ INTERNAL_RESPONSE_BODY_HEADER := by
  have hpt : isPassThroughName n = true :=
    mem_foldl_echoStep req.headers [] (by simp) (n, v) h
  unfold isPassThroughName at hpt
  simp only [Bool.and_eq_true, bne_iff_ne, ne_eq, Bool.not_eq_true'] at hpt
  refine ⟨?_, hpt.1.2, hpt.2⟩
  intro hmem
  have : RESERVED_HEADERS.contains (strToLower n) = true := List.elem_iff.mpr hmem
  rw [hpt.1.1] at this
  exact Bool.false_ne_true this

/-- C3 witness: the pass-through header x-test of `reqSimple` indeed has a
non-reserved, non-control name. -/
theorem c3_reserved_absent_witness :
    strToLower "x-test" ∉ RESERVED_HEADERS
    ∧ strToLower "x-test" ≠ INTERNAL_STATUS_CODE_HEADER
    ∧ strToLower "x-test" ≠ INTERNAL_RESPONSE_BODY_HEADER :=
  c3_reserved_absent reqSimple "x-test" "a" (by decide)

/-- C4 counterexample: internal.response-body present with value S equal to
the UTF-8 bytes of the string "é"; the response body is the echoed request
body "x", not S. -/
theorem c4_counterexample :
    headerGet reqBadBody.headers INTERNAL_RESPONSE_BODY_HEADER = some [195, 169]
    ∧ utf8LossyString [195, 169] = "é"
    ∧ (echo_handler reqBadBody).body = "x"
    ∧ ("x" : String) ≠ "é" := by decide

/-- C4 (amended): for every request in which internal.response-body is
present and its value converts to a string s (all bytes visible ASCII or
tab), the response body equals s, regardless of the request body. -/
theorem c4_body_override (req : Request) (v : List Nat) (s : String)
    (h1 : headerGet req.headers INTERNAL_RESPONSE_BODY_HEADER = some v)
    (h2 : headerValueToStr v = some s) :
    (echo_handler req).body = s := by
  simp [echo_handler, effectiveBody, h1, h2]

/-- C4 witness: a request overriding the body with "ok" (request body "x")
gets response body "ok". -/
theorem c4_body_override_witness : (echo_handler reqOverride).body = "ok" :=
  c4_body_override reqOverride [111, 107] "ok" (by decide) (by decide)

/-- C5: for every request in which the internal.response-body header is
absent, the response body equals the request body decoded leniently as
UTF-8. -/
theorem c5_default_body (req : Request)
    (h : headerGet req.headers INTERNAL_RESPONSE_BODY_HEADER = none) :
    (echo_handler req).body = utf8LossyString req.body := by
  simp [echo_handler, effectiveBody, h]

/-- C5 witness: `reqSimple` has no body override and its body "hello" is
echoed. -/
theorem c5_default_body_witness :
    (echo_handler reqSimple).body = utf8LossyString reqSimple.body
    ∧ utf8LossyString reqSimple.body = "hello" :=
  ⟨c5_default_body reqSimple (by decide), by decide⟩

/-- C10: for every request whose internal.response-body header is present
but whose value contains bytes outside the representable visible-ASCII
range, the body override is silently ignored and the response body falls
back to the leniently UTF-8-decoded request body. -/
theorem c10_unrepresentable_override (req : Request) (v : List Nat)
    (h1 : headerGet req.headers INTERNAL_RESPONSE_BODY_HEADER = some v)
    (h2 : headerValueToStr v = none) :
    (echo_handler req).body = utf8LossyString req.body := by
  simp [echo_handler, effectiveBody, h1, h2]

/-- C10 witness: `reqBadBody` overrides the body with non-ASCII bytes, and
the response body is the echoed request body. -/
theorem c10_unrepresentable_override_witness :
    headerValueToStr [195, 169] = none
    ∧ (echo_handler reqBadBody).body = utf8LossyString reqBadBody.body :=
  ⟨by decide, c10_unrepresentable_override reqBadBody [195, 169] (by decide) (by decide)⟩

/-- C8: the transformation is deterministic with no hidden state: the
response is a function of the request's headers and body alone (in
particular, two runs on a bitwise-identical request, including method,
path, query and verbose flag, yield the same response). -/
theorem c8_deterministic (r1 r2 : Request)
    (hh : r1.headers = r2.headers) (hb : r1.body = r2.body) :
    echo_handler r1 = echo_handler r2 := by
  unfold echo_handler
  rw [hh, hb]

/-- C8 witness: two requests agreeing on headers and body (here even with
different method, path, query and verbose flag) get identical responses. -/
theorem c8_deterministic_witness :
    echo_handler ⟨"GET", "/a", "", [("x-test", [97])], [104], false⟩
      = echo_handler ⟨"POST", "/b", "q=1", [("x-test", [97])], [104], true⟩ :=
  c8_deterministic _ _ rfl rfl

/-- C2 counterexample: the pass-through header x-test occurs twice in
`reqRepeated` (values "a" then "b"), but the response carries only a single
x-test header, with the last value; the occurrence with value "a" is not
copied, so repetition is not preserved. -/
theorem c2_counterexample :
    isPassThroughName "x-test" = true
    ∧ reqRepeated.headers = [("x-test", [97]), ("x-test", [98])]
    ∧ headerValueToStr [97] = some "a"
    ∧ (echo_handler reqRepeated).headers = [("x-test", "b")]
    ∧ ("x-test", "a") ∉ (echo_handler reqRepeated).headers := by decide

/-- C2 (amended): for every request whose pass-through header names are
pairwise distinct, the response headers are exactly the pass-through
occurrences with representable values, with the same names, the same
values, and the same relative order as in the request; when a pass-through
name is repeated, only one header with that name is emitted (carrying the
last representable value), so repetition is not preserved. -/
theorem c2_passthrough_headers (req : Request)
    (hnd : (ptNames req.headers).Nodup) :
    (echo_handler req).headers = req.headers.filterMap passPair := by
  have h := foldl_echoStep_eq req.headers [] (by simp) hnd
  simpa [echo_handler, echoHeaders] using h

/-- C2 witness: `reqSimple` has distinct pass-through names and its one
pass-through header is echoed in place. -/
theorem c2_passthrough_headers_witness :
    (ptNames reqSimple.headers).Nodup
    ∧ (echo_handler reqSimple).headers = reqSimple.headers.filterMap passPair
    ∧ reqSimple.headers.filterMap passPair = [("x-test", "a")] :=
  ⟨by decide, c2_passthrough_headers reqSimple (by decide), by decide⟩

/-- C6 counterexample: the reserved set does not contain every header name
beginning with accept, nor every header name beginning with x-forwarded-:
accept-charset and x-forwarded-host are missing. -/
theorem c6_counterexample :
    "accept-charset".data.take 6 = "accept".data
    ∧ "accept-charset" ∉ RESERVED_HEADERS
    ∧ "x-forwarded-host".data.take 12 = "x-forwarded-".data
    ∧ "x-forwarded-host" ∉ RESERVED_HEADERS := by
  refine ⟨rfl, by decide, rfl, by decide⟩

/-- C6 (amended): the process-wide reserved set contains content-length,
host, connection, user-agent, the accept-family names accept,
accept-encoding and accept-language, authorization, cookie, referer,
origin, the forwarding names x-forwarded-for, x-forwarded-proto and
x-real-ip, the proxy/auth challenge names proxy-authorization,
proxy-authenticate and www-authenticate, and the transfer/encoding names
transfer-encoding, te and trailer. -/
theorem c6_reserved_membership :
    "content-length" ∈ RESERVED_HEADERS
    ∧ "host" ∈ RESERVED_HEADERS
    ∧ "connection" ∈ RESERVED_HEADERS
    ∧ "user-agent" ∈ RESERVED_HEADERS
    ∧ "accept" ∈ RESERVED_HEADERS
    ∧ "accept-encoding" ∈ RESERVED_HEADERS
    ∧ "accept-language" ∈ RESERVED_HEADERS
    ∧ "authorization" ∈ RESERVED_HEADERS
    ∧ "cookie" ∈ RESERVED_HEADERS
    ∧ "referer" ∈ RESERVED_HEADERS
    ∧ "origin" ∈ RESERVED_HEADERS
    ∧ "x-forwarded-for" ∈ RESERVED_HEADERS
    ∧ "x-forwarded-proto" ∈ RESERVED_HEADERS
    ∧ "x-real-ip" ∈ RESERVED_HEADERS
    ∧ "proxy-authorization" ∈ RESERVED_HEADERS
    ∧ "proxy-authenticate" ∈ RESERVED_HEADERS
    ∧ "www-authenticate" ∈ RESERVED_HEADERS
    ∧ "transfer-encoding" ∈ RESERVED_HEADERS
    ∧ "te" ∈ RESERVED_HEADERS
    ∧ "trailer" ∈ RESERVED_HEADERS := by decide

/-- C7: response synthesis never fails: a pass-through header whose value
cannot be represented as a header-value string is skipped for that single
header only — the response (status, remaining headers, and body) is
exactly the one produced without that header. -/
theorem c7_skip_bad_header (m pth q : String) (vb : Bool)
    (hs1 hs2 : List (String × List Nat)) (n : String) (v : List Nat)
    (b : List Nat)
    (hpt : isPassThroughName n = true)
    (hbad : headerValueToStr v = none) :
    echo_handler ⟨m, pth, q, hs1 ++ (n, v) :: hs2, b, vb⟩
      = echo_handler ⟨m, pth, q, hs1 ++ hs2, b, vb⟩ := by
  have hname : ∀ cname, cname = INTERNAL_STATUS_CODE_HEADER
      ∨ cname = INTERNAL_RESPONSE_BODY_HEADER →
      (strToLower n == cname) = false := by
    intro cname hc
    unfold isPassThroughName at hpt
    simp only [Bool.and_eq_true, bne_iff_ne, ne_eq, Bool.not_eq_true'] at hpt
    rcases hc with hc | hc
    · subst hc; exact beq_eq_false_iff_ne.mpr hpt.1.2
    · subst hc; exact beq_eq_false_iff_ne.mpr hpt.2
  have hstep : ∀ acc, echoStep acc (n, v) = acc := by
    intro acc
    simp [echoStep, hbad]
  unfold echo_handler
  simp only [Response.mk.injEq]
  refine ⟨?_, ?_, ?_⟩
  · unfold effectiveStatusCode statusCodeRaw
    rw [headerGet_skip hs1 hs2 n v _ (hname _ (Or.inl rfl))]
  · unfold echoHeaders
    rw [List.foldl_append, List.foldl_append, List.foldl_cons, hstep]
  · unfold effectiveBody
    rw [headerGet_skip hs1 hs2 n v _ (hname _ (Or.inr rfl))]

/-- C7 witness: dropping a pass-through header with a non-ASCII value from a
concrete request leaves the response unchanged. -/
theorem c7_skip_bad_header_witness :
    isPassThroughName "x-bad" = true
    ∧ headerValueToStr [200] = none
    ∧ echo_handler ⟨"GET", "/", "", [("x-test", [97]), ("x-bad", [200])], [104], false⟩
        = echo_handler ⟨"GET", "/", "", [("x-test", [97])], [104], false⟩ :=
  ⟨by decide, by decide,
    c7_skip_bad_header "GET" "/" "" false [("x-test", [97])] [] "x-bad" [200] [104]
      (by decide) (by decide)⟩

/-- C9: host validation succeeds on 127.0.0.1, 0.0.0.0, 192.168.1.1 and ::1
and fails on invalid-hostname and 999.999.999.999; port validation succeeds
on 3000, 8080 and 65535 (returning those numbers) and fails on 0, 65536,
invalid and -1. -/
theorem c9_address_validation :
    validate_hostname "127.0.0.1" = Except.ok (IpAddr.v4 127 0 0 1)
    ∧ validate_hostname "0.0.0.0" = Except.ok (IpAddr.v4 0 0 0 0)
    ∧ validate_hostname "192.168.1.1" = Except.ok (IpAddr.v4 192 168 1 1)
    ∧ validate_hostname "::1" = Except.ok (IpAddr.v6 [0, 0, 0, 0, 0, 0, 0, 1])
    ∧ validate_hostname "invalid-hostname"
        = Except.error "Invalid hostname 'invalid-hostname'. Must be a valid IP address."
    ∧ validate_hostname "999.999.999.999"
        = Except.error "Invalid hostname '999.999.999.999'. Must be a valid IP address."
    ∧ validate_port "3000" = Except.ok 3000
    ∧ validate_port "8080" = Except.ok 8080
    ∧ validate_port "65535" = Except.ok 65535
    ∧ validate_port "0" = Except.error "Port cannot be 0. Must be between 1 and 65535."
    ∧ validate_port "65536"
        = Except.error "Invalid port '65536'. Must be a number between 1 and 65535."
    ∧ validate_port "invalid"
        = Except.error "Invalid port 'invalid'. Must be a number between 1 and 65535."
    ∧ validate_port "-1"
        = Except.error "Invalid port '-1'. Must be a number between 1 and 65535." := by
  refine ⟨rfl, rfl, rfl, rfl, rfl, rfl, rfl, rfl, rfl, rfl, rfl, rfl, rfl⟩
